import Mathlib

deriving instance DecidableEq for Except

/-
Shallow embedding of the tinypointers crate (src/lib.rs, src/boxed.rs,
src/sync.rs), built under the 1-byte-id configuration (RawId = NonZeroU8),
together with theorems checking the specification's claims.

The global arena (static MEMORY: Memory) is modelled by passing the Memory
state explicitly through every operation.  Panics are modelled as the
error branch of Except.  Slot ids are Nat (a RawId value is 1-based and
never 0 in reachable states).
-/

namespace Tinypointers

/-- Maximum representable RawId under the 1byteid feature: NonZeroU8::MAX. -/
def rawIdMax : Nat := 255

/-- 2^32, the modulus of the AtomicU32 reference counter. -/
def u32Mod : Nat := 4294967296

/-- The distinct panic sites of the crate, modelled as error values:
field order: "No more slots available" (insert_value), out-of-bounds
unwrap of RawId::new (insert_value), "Index out of bounds" (access/take),
"Pointer already freed" (access/take), and the TinyArc deref panic
"Attempted to dereference a TinyArc before it was built". -/
inductive MemErr where
  | noSlots
  | idOverflow
  | outOfBounds
  | alreadyFreed
  | notBuilt
deriving DecidableEq, Repr

/-- The arena, from struct Memory in src/lib.rs: a free list of reclaimed
ids (available: Mutex of Vec of RawId) and the slot table
(map: RwLock of Vec of Option of Value).  A slot holding some v is
Occupied; none is a freed slot.  Locks disappear in this sequential model. -/
structure Memory (α : Type) where
  available : List Nat
  map : List (Option α)
deriving DecidableEq, Repr

/-- Memory::new: empty free list, empty table. -/
def Memory.new {α : Type} : Memory α := ⟨[], []⟩

/-- Vec::pop on the free list: removes and returns the LAST element. -/
def vecPop : List Nat → Option (Nat × List Nat)
  | [] => none
  | x :: xs =>
    match vecPop xs with
    | none => some (x, [])
    | some (y, rest) => some (y, x :: rest)

/-- Memory::remaing_slots (the source's spelling):
available.len() + (RawId::MAX - map.len()). -/
def Memory.remaingSlots {α : Type} (m : Memory α) : Nat :=
  m.available.length + (rawIdMax - m.map.length)

/-- Memory::insert_value: panics when remaing_slots() == 0; otherwise pops
the free list: on None pushes the value and takes the new length, cast to
the id width, as the id (RawId::new(map.len() as _).unwrap()); on
Some(idx) overwrites map[idx-1] (out-of-bounds indexing panics). -/
def Memory.insert_value {α : Type} (m : Memory α) (value : α) :
    Except MemErr (Nat × Memory α) :=
  if m.remaingSlots = 0 then .error .noSlots
  else
    match vecPop m.available with
    | none =>
      let map := m.map ++ [some value]
      let raw := map.length % 256
      if raw = 0 then .error .idOverflow
      else .ok (raw, ⟨m.available, map⟩)
    | some (idx, rest) =>
      if idx - 1 < m.map.length then
        .ok (idx, ⟨rest, m.map.set (idx - 1) (some value)⟩)
      else .error .outOfBounds

/-- Memory::access: map.get(id-1).expect("Index out of bounds")
.as_ref().expect("Pointer already freed"); returns (a pointer to) the
stored value. -/
def Memory.access {α : Type} (m : Memory α) (id : Nat) : Except MemErr α :=
  match m.map[id - 1]? with
  | none => .error .outOfBounds
  | some none => .error .alreadyFreed
  | some (some v) => .ok v

/-- Memory::take: same resolution as access, then Option::take empties the
slot and the boxed value is returned.  Note: the freed id is NOT pushed
onto the free list. -/
def Memory.take {α : Type} (m : Memory α) (id : Nat) :
    Except MemErr (α × Memory α) :=
  match m.map[id - 1]? with
  | none => .error .outOfBounds
  | some none => .error .alreadyFreed
  | some (some v) => .ok (v, ⟨m.available, m.map.set (id - 1) none⟩)

/-- In-place write through a raw pointer obtained from a slot (the effect
of writing through Value::get's pointer): replaces the slot's payload. -/
def Memory.writeSlot {α : Type} (m : Memory α) (id : Nat) (v : α) : Memory α :=
  ⟨m.available, m.map.set (id - 1) (some v)⟩

/-- The variants of std::sync::atomic::Ordering. -/
inductive AtomicOrdering where
  | relaxed
  | acquire
  | release
  | acqRel
  | seqCst
deriving DecidableEq, Repr

/-- AtomicU32::fetch_add in this sequential model: previous value and the
wrapped new value.  The first argument records the Ordering the call site
passes; it does not affect the sequential result. -/
def fetchAdd (o : AtomicOrdering) (n c : Nat) : Nat × Nat :=
  (c, (c + n) % u32Mod)

/-- AtomicU32::fetch_sub in this sequential model: previous value and the
wrapped new value. -/
def fetchSub (o : AtomicOrdering) (n c : Nat) : Nat × Nat :=
  (c, (c + (u32Mod - n % u32Mod)) % u32Mod)

/-- struct RefCounted from src/sync.rs: an AtomicU32 count and the value. -/
structure RefCounted (α : Type) where
  count : Nat
  value : α
deriving DecidableEq, Repr

/-- The Ordering passed to fetch_add in TinyArc::increase_count
(src/sync.rs line 142): Ordering::Relaxed. -/
def increase_count_ordering : AtomicOrdering := .relaxed

/-- The Ordering passed to fetch_sub in TinyArc::decrease_count
(src/sync.rs line 147): Ordering::Relaxed. -/
def decrease_count_ordering : AtomicOrdering := .relaxed

/-- TinyArc::increase_count: self.get().count.fetch_add(1, Relaxed).
A TinyArc value is modelled by its slot id; self.get() resolves the slot
through Memory::access (panicking on a freed or out-of-range slot) and the
fetch_add mutates the count in place.  Returns the previous count. -/
def TinyArc.increase_count {α : Type} (m : Memory (RefCounted α)) (id : Nat) :
    Except MemErr (Nat × Memory (RefCounted α)) :=
  match m.access id with
  | .error e => .error e
  | .ok rc =>
    let r := fetchAdd increase_count_ordering 1 rc.count
    .ok (r.1, m.writeSlot id ⟨r.2, rc.value⟩)

/-- TinyArc::decrease_count: self.get().count.fetch_sub(1, Relaxed).
Returns the previous count. -/
def TinyArc.decrease_count {α : Type} (m : Memory (RefCounted α)) (id : Nat) :
    Except MemErr (Nat × Memory (RefCounted α)) :=
  match m.access id with
  | .error e => .error e
  | .ok rc =>
    let r := fetchSub decrease_count_ordering 1 rc.count
    .ok (r.1, m.writeSlot id ⟨r.2, rc.value⟩)

/-- TinyWeak::upgrade: let arc = TinyArc(self.0); increase_count(arc); arc.
The incremented arc id is returned whatever the previous count was. -/
def TinyWeak.upgrade {α : Type} (m : Memory (RefCounted α)) (id : Nat) :
    Except MemErr (Nat × Memory (RefCounted α)) :=
  match TinyArc.increase_count m id with
  | .error e => .error e
  | .ok (_, m') => .ok (id, m')

/-- TinyArc::new: inserts RefCounted with count 1 and the value. -/
def TinyArc.new {α : Type} (m : Memory (RefCounted α)) (v : α) :
    Except MemErr (Nat × Memory (RefCounted α)) :=
  m.insert_value ⟨1, v⟩

/-- Deref for TinyArc: loads the count (Relaxed) and panics when it is 0
(a not-yet-built cyclic placeholder); otherwise yields the value. -/
def TinyArc.deref {α : Type} (m : Memory (RefCounted α)) (id : Nat) :
    Except MemErr α :=
  match m.access id with
  | .error e => .error e
  | .ok rc => if rc.count = 0 then .error .notBuilt else .ok rc.value

/-- TinyArc::ptr_eq: this.0.id() == other.0.id(). -/
def TinyArc.ptr_eq (a b : Nat) : Bool := a == b

/-- TinyArc::downgrade: TinyWeak over the same slot id, count untouched. -/
def TinyArc.downgrade (id : Nat) : Nat := id

/-- Clone for TinyArc: increase_count, then a new TinyArc over the same id. -/
def TinyArc.clone {α : Type} (m : Memory (RefCounted α)) (id : Nat) :
    Except MemErr (Nat × Memory (RefCounted α)) :=
  match TinyArc.increase_count m id with
  | .error e => .error e
  | .ok (_, m') => .ok (id, m')

/-- Drop for TinyArc: owners := decrease_count(self); when owners == 1
(this drop saw the previous count 1, so it is the last owner) the slot is
taken from the arena, running the inner destructor. -/
def TinyArc.drop {α : Type} (m : Memory (RefCounted α)) (id : Nat) :
    Except MemErr (Memory (RefCounted α)) :=
  match TinyArc.decrease_count m id with
  | .error e => .error e
  | .ok (owners, m') =>
    if owners = 1 then
      match m'.take id with
      | .error e => .error e
      | .ok (_, m'') => .ok m''
    else .ok m'

/-- TinyArc::new_cyclic: inserts RefCounted with count 0 and an
uninitialized value (MaybeUninit::uninit().assume_init(), modelled by the
caller-supplied placeholder), hands the weak id to the builder, writes the
builder's result into the value field in place (addr_of_mut!(ptr.value)
.write(data)), then increase_count and return the arc over the same id.
The builder is modelled as a pure function of the weak id it receives. -/
def TinyArc.new_cyclic {α : Type} (m : Memory (RefCounted α)) (uninit : α)
    (data_fn : Nat → α) : Except MemErr (Nat × Memory (RefCounted α)) :=
  match m.insert_value ⟨0, uninit⟩ with
  | .error e => .error e
  | .ok (ptr, m1) =>
    let data := data_fn ptr
    match m1.access ptr with
    | .error e => .error e
    | .ok rc =>
      let m2 := m1.writeSlot ptr ⟨rc.count, data⟩
      match TinyArc.increase_count m2 ptr with
      | .error e => .error e
      | .ok (_, m3) => .ok (ptr, m3)

/-- Iterated Clone of a TinyArc: n successive clone calls on the same id. -/
def TinyArc.cloneN {α : Type} :
    Nat → Memory (RefCounted α) → Nat → Except MemErr (Memory (RefCounted α))
  | 0, m, _ => .ok m
  | n + 1, m, id =>
    match TinyArc.clone m id with
    | .error e => .error e
    | .ok (_, m') => TinyArc.cloneN n m' id

/-- Iterated Drop of a TinyArc: n successive drop calls on the same id. -/
def TinyArc.dropN {α : Type} :
    Nat → Memory (RefCounted α) → Nat → Except MemErr (Memory (RefCounted α))
  | 0, m, _ => .ok m
  | n + 1, m, id =>
    match TinyArc.drop m id with
    | .error e => .error e
    | .ok m' => TinyArc.dropN n m' id

/-- TinyBox::new: TinyPtr::new, i.e. Memory::insert_value. -/
def TinyBox.new {α : Type} (m : Memory α) (v : α) :
    Except MemErr (Nat × Memory α) :=
  m.insert_value v

/-- Deref for TinyBox: unsafe access of the slot. -/
def TinyBox.deref {α : Type} (m : Memory α) (id : Nat) : Except MemErr α :=
  m.access id

/-- Clone for TinyBox: Self::new(self.deref().clone()) - reads the value
and inserts a deep copy into a fresh slot. -/
def TinyBox.clone {α : Type} (m : Memory α) (id : Nat) :
    Except MemErr (Nat × Memory α) :=
  match m.access id with
  | .error e => .error e
  | .ok v => m.insert_value v

/-- A write through DerefMut for TinyBox (get_mut then store through the
returned pointer): resolves the slot, then overwrites its payload. -/
def TinyBox.write {α : Type} (m : Memory α) (id : Nat) (v : α) :
    Except MemErr (Memory α) :=
  match m.access id with
  | .error e => .error e
  | .ok _ => .ok (m.writeSlot id v)

/-- Drop for TinyBox: self.0.take(), discarding the value. -/
def TinyBox.drop {α : Type} (m : Memory α) (id : Nat) :
    Except MemErr (Memory α) :=
  match m.take id with
  | .error e => .error e
  | .ok (_, m') => .ok m'

/-! Helper lemmas about the embedded operations. -/

theorem vecPop_eq_none_iff (l : List Nat) : vecPop l = none ↔ l = [] := by
  cases l with
  | nil => simp [vecPop]
  | cons x xs =>
    simp only [vecPop]
    cases vecPop xs <;> simp

theorem vecPop_mem {l rest : List Nat} {x : Nat}
    (h : vecPop l = some (x, rest)) : x ∈ l := by
  induction l generalizing x rest with
  | nil => simp [vecPop] at h
  | cons a as ih =>
    simp only [vecPop] at h
    cases hv : vecPop as with
    | none =>
      rw [hv] at h
      simp only [Option.some.injEq, Prod.mk.injEq] at h
      simp [h.1]
    | some p =>
      obtain ⟨y, r⟩ := p
      rw [hv] at h
      simp only [Option.some.injEq, Prod.mk.injEq] at h
      have hy : y ∈ as := ih hv
      simp [← h.1, List.mem_cons]
      right
      exact hy

theorem Memory.access_eq_ok_iff {α : Type} (m : Memory α) (id : Nat) (v : α) :
    m.access id = .ok v ↔ m.map[id - 1]? = some (some v) := by
  cases h : m.map[id - 1]? with
  | none => simp [Memory.access, h]
  | some o => cases o <;> simp [Memory.access, h]

theorem Memory.access_eq_freed_iff {α : Type} (m : Memory α) (id : Nat) :
    m.access id = .error .alreadyFreed ↔ m.map[id - 1]? = some none := by
  cases h : m.map[id - 1]? with
  | none => simp [Memory.access, h]
  | some o => cases o <;> simp [Memory.access, h]

theorem Memory.access_oob {α : Type} (m : Memory α) (id : Nat)
    (h : m.map.length < id) : m.access id = .error .outOfBounds := by
  have : m.map[id - 1]? = none := List.getElem?_eq_none (by omega)
  simp [Memory.access, this]

/-- What a successful insert guarantees: the returned slot holds the value,
every other table index is unchanged, the free list shrank or stayed, the
table did not shrink, and the id is nonzero and in bounds. -/
theorem Memory.insert_ok_spec {α : Type} {m : Memory α} {v : α} {id : Nat}
    {m' : Memory α} (h : m.insert_value v = .ok (id, m')) :
    m'.map[id - 1]? = some (some v) ∧
    (∀ k, k ≠ id - 1 → m'.map[k]? = m.map[k]?) ∧
    m.map.length ≤ m'.map.length ∧
    id - 1 < m'.map.length := by
  unfold Memory.insert_value at h
  by_cases h0 : m.remaingSlots = 0
  · simp [h0] at h
  · rw [if_neg h0] at h
    cases hp : vecPop m.available with
    | none =>
      rw [hp] at h
      simp only at h
      have hav : m.available = [] := (vecPop_eq_none_iff _).mp hp
      have hlen : m.map.length < 255 := by
        have := m.remaingSlots
        unfold Memory.remaingSlots rawIdMax at h0
        rw [hav] at h0
        simp at h0
        omega
      have hr : (m.map ++ [some v]).length % 256 = m.map.length + 1 := by
        simp
        omega
      rw [hr] at h
      rw [if_neg (by omega)] at h
      simp only [Except.ok.injEq, Prod.mk.injEq] at h
      obtain ⟨hid, hm'⟩ := h
      subst hid
      subst hm'
      refine ⟨?_, ?_, by simp, by simp⟩
      · simpa using List.getElem?_concat_length m.map (some v)
      · intro k hk
        simp only [Nat.add_sub_cancel] at hk
        rcases Nat.lt_or_ge k m.map.length with hlt | hge
        · rw [List.getElem?_append, if_pos hlt]
        · have hgt : m.map.length < k := by omega
          rw [List.getElem?_append, if_neg (by omega)]
          rw [List.getElem?_eq_none (l := m.map) (by omega)]
          rw [List.getElem?_eq_none (by simp; omega)]
    | some p =>
      rw [hp] at h
      simp only at h
      by_cases hb : p.1 - 1 < m.map.length
      · rw [if_pos hb] at h
        simp only [Except.ok.injEq, Prod.mk.injEq] at h
        obtain ⟨hid, hm'⟩ := h
        subst hid
        subst hm'
        refine ⟨List.getElem?_set_eq_of_lt _ hb, ?_, by simp, by simp; omega⟩
        intro k hk
        exact List.getElem?_set_ne (Ne.symm hk)
      · rw [if_neg hb] at h
        cases h

theorem Memory.take_of_slot {α : Type} (m : Memory α) (id : Nat) (v : α)
    (h : m.map[id - 1]? = some (some v)) :
    m.take id = .ok (v, ⟨m.available, m.map.set (id - 1) none⟩) := by
  simp [Memory.take, h]

theorem Memory.take_freed {α : Type} (m : Memory α) (id : Nat)
    (h : m.map[id - 1]? = some none) :
    m.take id = .error .alreadyFreed := by
  simp [Memory.take, h]

theorem Memory.access_writeSlot_self {α : Type} (m : Memory α) (id : Nat)
    (v : α) (h : id - 1 < m.map.length) :
    (m.writeSlot id v).access id = .ok v := by
  have : (m.map.set (id - 1) (some v))[id - 1]? = some (some v) :=
    List.getElem?_set_eq_of_lt _ h
  simp [Memory.access, Memory.writeSlot, this]

theorem Memory.access_writeSlot_other {α : Type} (m : Memory α) (id j : Nat)
    (v : α) (h : j - 1 ≠ id - 1) :
    (m.writeSlot id v).access j = m.access j := by
  unfold Memory.access Memory.writeSlot
  rw [List.getElem?_set_ne (Ne.symm h)]

theorem TinyBox.drop_of_slot {α : Type} (m : Memory α) (id : Nat) (v : α)
    (h : m.map[id - 1]? = some (some v)) :
    TinyBox.drop m id = .ok ⟨m.available, m.map.set (id - 1) none⟩ := by
  rw [TinyBox.drop, Memory.take_of_slot m id v h]

theorem TinyBox.drop_freed {α : Type} (m : Memory α) (id : Nat)
    (h : m.map[id - 1]? = some none) :
    TinyBox.drop m id = .error .alreadyFreed := by
  rw [TinyBox.drop, Memory.take_freed m id h]

theorem getElem?_some_lt {α : Type} {l : List α} {i : Nat} {a : α}
    (h : l[i]? = some a) : i < l.length := by
  by_contra hge
  rw [List.getElem?_eq_none (by omega)] at h
  cases h

theorem TinyArc.increase_of_slot {α : Type} (m : Memory (RefCounted α))
    (id c : Nat) (v : α) (h : m.map[id - 1]? = some (some ⟨c, v⟩))
    (hc : c + 1 < u32Mod) :
    TinyArc.increase_count m id = .ok (c, m.writeSlot id ⟨c + 1, v⟩) := by
  unfold TinyArc.increase_count
  have ha : m.access id = .ok ⟨c, v⟩ := (Memory.access_eq_ok_iff _ _ _).mpr h
  rw [ha]
  simp [fetchAdd, Nat.mod_eq_of_lt hc, increase_count_ordering]

/-- A successful insert exists whenever capacity remains and every id on
the free list is in bounds. -/
theorem Memory.insert_succeeds {α : Type} (m : Memory α) (v : α)
    (hcap : m.remaingSlots ≠ 0)
    (hfree : ∀ i ∈ m.available, i - 1 < m.map.length) :
    ∃ id' m', m.insert_value v = .ok (id', m') := by
  unfold Memory.insert_value
  rw [if_neg hcap]
  cases hp : vecPop m.available with
  | none =>
    have hav := (vecPop_eq_none_iff _).mp hp
    have hlen : m.map.length < 255 := by
      unfold Memory.remaingSlots rawIdMax at hcap
      rw [hav] at hcap
      simp at hcap
      omega
    simp only
    rw [show (m.map ++ [some v]).length % 256 = m.map.length + 1 by simp; omega]
    rw [if_neg (by omega)]
    exact ⟨_, _, rfl⟩
  | some p =>
    obtain ⟨idx, rest⟩ := p
    simp only
    rw [if_pos (hfree idx (vecPop_mem hp))]
    exact ⟨_, _, rfl⟩

/-- The slot an insert assigns is never the slot of a live (Occupied)
handle, provided every free-list id denotes an emptied slot. -/
theorem Memory.insert_fresh_id {α : Type} {m : Memory α} {v w : α}
    {id id' : Nat} {m' : Memory α}
    (h : m.insert_value v = .ok (id', m'))
    (hocc : m.map[id - 1]? = some (some w))
    (hfree : ∀ i ∈ m.available, m.map[i - 1]? = some none) :
    id' - 1 ≠ id - 1 ∧ id' ≠ id := by
  have hlt : id - 1 < m.map.length := getElem?_some_lt hocc
  unfold Memory.insert_value at h
  by_cases h0 : m.remaingSlots = 0
  · simp [h0] at h
  · rw [if_neg h0] at h
    cases hp : vecPop m.available with
    | none =>
      rw [hp] at h
      simp only at h
      have hav : m.available = [] := (vecPop_eq_none_iff _).mp hp
      have hlen : m.map.length < 255 := by
        unfold Memory.remaingSlots rawIdMax at h0
        rw [hav] at h0
        simp at h0
        omega
      rw [show (m.map ++ [some v]).length % 256 = m.map.length + 1 by
        simp; omega] at h
      rw [if_neg (by omega)] at h
      have hid' : id' = m.map.length + 1 :=
        (((Prod.mk.injEq _ _ _ _).mp (Except.ok.inj h)).1).symm
      constructor <;> omega
    | some p =>
      obtain ⟨idx, rest⟩ := p
      rw [hp] at h
      simp only at h
      by_cases hb : idx - 1 < m.map.length
      · rw [if_pos hb] at h
        have hid' : id' = idx :=
          (((Prod.mk.injEq _ _ _ _).mp (Except.ok.inj h)).1).symm
        have hnone := hfree idx (vecPop_mem hp)
        subst hid'
        constructor
        · intro he
          rw [he, hocc] at hnone
          simp at hnone
        · intro he
          rw [he, hocc] at hnone
          simp at hnone
      · rw [if_neg hb] at h
        cases h

/-! Theorems for the claims. -/

/-- Claim C4: inserting a value v into the arena and then accessing the
returned handle observes exactly the value v, unchanged. -/
theorem insert_then_access_roundtrip {α : Type} (m : Memory α) (v : α)
    (id : Nat) (m' : Memory α) (h : m.insert_value v = .ok (id, m')) :
    m'.access id = .ok v :=
  (Memory.access_eq_ok_iff m' id v).mpr (Memory.insert_ok_spec h).1

/-- Witness for C4: inserting 42 into the empty arena yields handle 1, and
access on it reads back 42. -/
theorem insert_then_access_roundtrip_witness :
    Memory.insert_value (Memory.new : Memory Nat) 42 = .ok (1, ⟨[], [some 42]⟩) ∧
    Memory.access (⟨[], [some 42]⟩ : Memory Nat) 1 = .ok 42 :=
  ⟨rfl, insert_then_access_roundtrip Memory.new 42 1 ⟨[], [some 42]⟩ rfl⟩

/-- Claim C1 is violated by the code: Memory::take empties the slot but
never pushes the freed id onto the free list.  Concretely: taking handle 1
from a one-slot arena leaves the free list empty, and the next insert,
performed after that take, appends a fresh slot 2 instead of reusing id 1. -/
theorem take_does_not_return_id_to_free_list :
    Memory.take (⟨[], [some 7]⟩ : Memory Nat) 1 = .ok (7, ⟨[], [none]⟩) ∧
    (⟨[], [none]⟩ : Memory Nat).available = [] ∧
    Memory.insert_value (⟨[], [none]⟩ : Memory Nat) 8
      = .ok (2, ⟨[], [none, some 8]⟩) :=
  ⟨rfl, rfl, rfl⟩

/-- Claim C7: take on a freshly inserted handle returns exactly the
inserted value; afterwards access and take on the same handle fail with
the already-freed panic, and access on any index beyond the table's bounds
fails with the out-of-bounds panic. -/
theorem take_fresh_returns_value_then_stale_fatal {α : Type}
    (m : Memory α) (v : α) (id : Nat) (m' : Memory α)
    (h : m.insert_value v = .ok (id, m')) :
    ∃ m2 : Memory α,
      m'.take id = .ok (v, m2) ∧
      m2.access id = .error .alreadyFreed ∧
      m2.take id = .error .alreadyFreed ∧
      (∀ j, m2.map.length < j → m2.access j = .error .outOfBounds) := by
  obtain ⟨hslot, -, -, hlt⟩ := Memory.insert_ok_spec h
  have hfreed : (m'.map.set (id - 1) none)[id - 1]? = some none :=
    List.getElem?_set_eq_of_lt _ hlt
  refine ⟨⟨m'.available, m'.map.set (id - 1) none⟩,
    Memory.take_of_slot m' id v hslot, ?_, ?_, ?_⟩
  · exact (Memory.access_eq_freed_iff _ id).mpr hfreed
  · exact Memory.take_freed _ id hfreed
  · intro j hj
    exact Memory.access_oob _ j hj

/-- Witness for C7: insert 42 into the empty arena (handle 1), take it
back, then observe both stale uses fail and out-of-range access fails. -/
theorem take_fresh_returns_value_then_stale_fatal_witness :
    Memory.insert_value (Memory.new : Memory Nat) 42 = .ok (1, ⟨[], [some 42]⟩) ∧
    (∃ m2 : Memory Nat,
      Memory.take (⟨[], [some 42]⟩ : Memory Nat) 1 = .ok (42, m2) ∧
      m2.access 1 = .error .alreadyFreed ∧
      m2.take 1 = .error .alreadyFreed ∧
      (∀ j, m2.map.length < j → m2.access j = .error .outOfBounds)) :=
  ⟨rfl, take_fresh_returns_value_then_stale_fatal Memory.new 42 1 ⟨[], [some 42]⟩ rfl⟩

/-- Claim C10: take is frame-local: it changes only the taken handle's own
slot.  The table length and the free list are unchanged, every other table
index keeps exactly its previous contents, and every other (nonzero)
handle resolves via access to the same result as before. -/
theorem take_frames_other_slots {α : Type} (m : Memory α) (id : Nat) (v : α)
    (m' : Memory α) (hid : 1 ≤ id) (h : m.take id = .ok (v, m')) :
    m'.map.length = m.map.length ∧
    m'.available = m.available ∧
    (∀ k, k ≠ id - 1 → m'.map[k]? = m.map[k]?) ∧
    (∀ j, 1 ≤ j → j ≠ id → m'.access j = m.access j) := by
  have hm' : m' = ⟨m.available, m.map.set (id - 1) none⟩ := by
    cases hs : m.map[id - 1]? with
    | none => simp [Memory.take, hs] at h
    | some o =>
      cases o with
      | none => simp [Memory.take, hs] at h
      | some w =>
        rw [Memory.take_of_slot m id w hs] at h
        exact ((Prod.mk.injEq _ _ _ _).mp (Except.ok.inj h)).2.symm
  subst hm'
  refine ⟨by simp, rfl, ?_, ?_⟩
  · intro k hk
    exact List.getElem?_set_ne (Ne.symm hk)
  · intro j h1 hj
    unfold Memory.access
    rw [List.getElem?_set_ne (by omega)]

/-- Witness for C10: taking handle 1 from a two-slot arena leaves slot 2's
contents and the table shape untouched. -/
theorem take_frames_other_slots_witness :
    (1 ≤ 1 ∧ Memory.take (⟨[], [some 10, some 20]⟩ : Memory Nat) 1
        = .ok (10, ⟨[], [none, some 20]⟩)) ∧
    ((⟨[], [none, some 20]⟩ : Memory Nat).map.length
        = (⟨[], [some 10, some 20]⟩ : Memory Nat).map.length ∧
      (⟨[], [none, some 20]⟩ : Memory Nat).available
        = (⟨[], [some 10, some 20]⟩ : Memory Nat).available ∧
      (∀ k, k ≠ 1 - 1 → (⟨[], [none, some 20]⟩ : Memory Nat).map[k]?
          = (⟨[], [some 10, some 20]⟩ : Memory Nat).map[k]?) ∧
      (∀ j, 1 ≤ j → j ≠ 1 → (⟨[], [none, some 20]⟩ : Memory Nat).access j
          = (⟨[], [some 10, some 20]⟩ : Memory Nat).access j)) :=
  ⟨⟨by decide, rfl⟩,
    take_frames_other_slots ⟨[], [some 10, some 20]⟩ 1 10
      ⟨[], [none, some 20]⟩ (by decide) rfl⟩

/-- Claim C6: with the table at the 255-slot cap, the free list empty and
all 255 slots Occupied, the 256th insert fails with the no-slots panic
(remaing_slots is 0), and, the failed insert having mutated nothing, every
one of the 255 existing handles still resolves to its value. -/
theorem insert_at_capacity_fails_handles_survive {α : Type}
    (m : Memory α) (v : α)
    (hlen : m.map.length = 255) (hav : m.available = [])
    (hlive : ∀ k, k < 255 → m.map[k]? ≠ none ∧ m.map[k]? ≠ some none) :
    m.insert_value v = .error .noSlots ∧
    m.remaingSlots = 0 ∧
    (∀ j, 1 ≤ j → j ≤ 255 → ∃ w, m.access j = .ok w) := by
  have h0 : m.remaingSlots = 0 := by
    unfold Memory.remaingSlots rawIdMax
    rw [hav, hlen]
    simp
  refine ⟨by unfold Memory.insert_value; rw [if_pos h0], h0, ?_⟩
  intro j h1 h255
  have hk := hlive (j - 1) (by omega)
  cases hj : m.map[j - 1]? with
  | none => exact absurd hj hk.1
  | some o =>
    cases o with
    | none => exact absurd hj hk.2
    | some w => exact ⟨w, (Memory.access_eq_ok_iff m j w).mpr hj⟩

set_option maxRecDepth 4000 in
/-- Witness for C6: a concrete arena with 255 occupied slots rejects the
256th insert while all 255 handles remain readable. -/
theorem insert_at_capacity_fails_handles_survive_witness :
    ((⟨[], List.replicate 255 (some 0)⟩ : Memory Nat).map.length = 255 ∧
      (⟨[], List.replicate 255 (some 0)⟩ : Memory Nat).available = [] ∧
      (∀ k, k < 255 →
        (⟨[], List.replicate 255 (some 0)⟩ : Memory Nat).map[k]? ≠ none ∧
        (⟨[], List.replicate 255 (some 0)⟩ : Memory Nat).map[k]? ≠ some none)) ∧
    (Memory.insert_value (⟨[], List.replicate 255 (some 0)⟩ : Memory Nat) 1
        = .error .noSlots ∧
      (⟨[], List.replicate 255 (some 0)⟩ : Memory Nat).remaingSlots = 0 ∧
      (∀ j, 1 ≤ j → j ≤ 255 → ∃ w,
        (⟨[], List.replicate 255 (some 0)⟩ : Memory Nat).access j = .ok w)) :=
  ⟨⟨by decide, rfl, by decide⟩,
    insert_at_capacity_fails_handles_survive ⟨[], List.replicate 255 (some 0)⟩ 1
      (by decide) rfl (by decide)⟩

/-- Claim C2 is violated by the code: a count-0 placeholder state (as
reserved by new_cyclic) is reachable by insert; TinyWeak::upgrade on it
performs an unvalidated, uncompensated fetch_add and returns successfully,
the count going 0 to 1, and dereferencing the returned arc then succeeds,
exposing the not-yet-built placeholder value instead of failing. -/
theorem upgrade_on_zero_count_succeeds_uncompensated :
    Memory.insert_value (Memory.new : Memory (RefCounted Nat)) ⟨0, 99⟩
      = .ok (1, ⟨[], [some ⟨0, 99⟩]⟩) ∧
    TinyWeak.upgrade (⟨[], [some ⟨0, 99⟩]⟩ : Memory (RefCounted Nat)) 1
      = .ok (1, ⟨[], [some ⟨1, 99⟩]⟩) ∧
    TinyArc.deref (⟨[], [some ⟨1, 99⟩]⟩ : Memory (RefCounted Nat)) 1 = .ok 99 :=
  ⟨rfl, rfl, rfl⟩

/-- Claim C9 is violated by the code: the fetch_sub in decrease_count -
the decrement that can trigger the free in Drop - passes Ordering::Relaxed,
not the release ordering the claim requires, and the fetch_add in
increase_count is Relaxed as well; no acquire is performed anywhere. -/
theorem decrement_ordering_is_relaxed_not_release :
    decrease_count_ordering = AtomicOrdering.relaxed ∧
    decrease_count_ordering ≠ AtomicOrdering.release ∧
    increase_count_ordering = AtomicOrdering.relaxed :=
  ⟨rfl, by decide, rfl⟩

/-! Single-step and iterated refcount lemmas on the canonical one-slot
arena reached from TinyArc::new on an empty Memory. -/

theorem TinyArc.clone_single {α : Type} (c : Nat) (v : α)
    (hc : c + 1 < u32Mod) :
    TinyArc.clone (⟨[], [some ⟨c, v⟩]⟩ : Memory (RefCounted α)) 1
      = .ok (1, ⟨[], [some ⟨c + 1, v⟩]⟩) := by
  unfold TinyArc.clone TinyArc.increase_count
  simp [Memory.access, fetchAdd, Memory.writeSlot, Nat.mod_eq_of_lt hc,
    increase_count_ordering]

theorem TinyArc.decrease_single {α : Type} (c : Nat) (v : α)
    (hcu : c < u32Mod) (hc1 : 1 ≤ c) :
    TinyArc.decrease_count (⟨[], [some ⟨c, v⟩]⟩ : Memory (RefCounted α)) 1
      = .ok (c, ⟨[], [some ⟨c - 1, v⟩]⟩) := by
  unfold TinyArc.decrease_count
  have hm : (c + (u32Mod - 1 % u32Mod)) % u32Mod = c - 1 := by
    unfold u32Mod at *
    omega
  simp [Memory.access, fetchSub, Memory.writeSlot, hm, decrease_count_ordering]

theorem TinyArc.drop_single_not_last {α : Type} (c : Nat) (v : α)
    (hc2 : 2 ≤ c) (hcu : c < u32Mod) :
    TinyArc.drop (⟨[], [some ⟨c, v⟩]⟩ : Memory (RefCounted α)) 1
      = .ok ⟨[], [some ⟨c - 1, v⟩]⟩ := by
  unfold TinyArc.drop
  rw [TinyArc.decrease_single c v hcu (by omega)]
  have h1 : ¬ (c = 1) := by omega
  simp [h1]

theorem TinyArc.drop_single_last {α : Type} (v : α) :
    TinyArc.drop (⟨[], [some ⟨1, v⟩]⟩ : Memory (RefCounted α)) 1
      = .ok ⟨[], [none]⟩ := by
  unfold TinyArc.drop TinyArc.decrease_count
  have hm : (1 + (u32Mod - 1 % u32Mod)) % u32Mod = 0 := by
    unfold u32Mod
    omega
  simp [Memory.access, fetchSub, Memory.writeSlot, hm, decrease_count_ordering,
    Memory.take]

theorem TinyArc.cloneN_adds {α : Type} (v : α) :
    ∀ (n c : Nat), c + n < u32Mod →
      TinyArc.cloneN n (⟨[], [some ⟨c, v⟩]⟩ : Memory (RefCounted α)) 1
        = .ok ⟨[], [some ⟨c + n, v⟩]⟩
  | 0, c, _ => by simp [TinyArc.cloneN]
  | n + 1, c, h => by
    rw [TinyArc.cloneN, TinyArc.clone_single c v (by omega)]
    have hcc : c + (n + 1) = c + 1 + n := by omega
    rw [hcc]
    exact TinyArc.cloneN_adds v n (c + 1) (by omega)

theorem TinyArc.dropN_below {α : Type} (v : α) :
    ∀ (k c : Nat), k < c → c < u32Mod →
      TinyArc.dropN k (⟨[], [some ⟨c, v⟩]⟩ : Memory (RefCounted α)) 1
        = .ok ⟨[], [some ⟨c - k, v⟩]⟩
  | 0, c, _, _ => by simp [TinyArc.dropN]
  | k + 1, c, hk, hc => by
    rw [TinyArc.dropN, TinyArc.drop_single_not_last c v (by omega) hc]
    have hcc : c - (k + 1) = c - 1 - k := by omega
    rw [hcc]
    exact TinyArc.dropN_below v k (c - 1) (by omega) (by omega)

theorem TinyArc.dropN_all {α : Type} (v : α) :
    ∀ (c : Nat), 1 ≤ c → c < u32Mod →
      TinyArc.dropN c (⟨[], [some ⟨c, v⟩]⟩ : Memory (RefCounted α)) 1
        = .ok ⟨[], [none]⟩
  | 0, h, _ => absurd h (by omega)
  | 1, _, _ => by
    rw [TinyArc.dropN, TinyArc.drop_single_last v]
    rfl
  | c + 2, _, hc => by
    rw [TinyArc.dropN, TinyArc.drop_single_not_last (c + 2) v (by omega) hc]
    have hcc : c + 2 - 1 = c + 1 := by omega
    rw [hcc]
    exact TinyArc.dropN_all v (c + 1) (by omega) (by omega)

/-- Claim C3 fails on the code at N = 1: from a TinyArc fresh out of new
(count 1), one clone (count 2) followed by one drop leaves the count at 1
and the slot still Occupied: the value has NOT been freed at the Nth = 1st
drop; a further (N+1st) drop is what frees it. -/
theorem one_clone_one_drop_does_not_free :
    TinyArc.new (Memory.new : Memory (RefCounted Nat)) 42
      = .ok (1, ⟨[], [some ⟨1, 42⟩]⟩) ∧
    TinyArc.clone (⟨[], [some ⟨1, 42⟩]⟩ : Memory (RefCounted Nat)) 1
      = .ok (1, ⟨[], [some ⟨2, 42⟩]⟩) ∧
    TinyArc.drop (⟨[], [some ⟨2, 42⟩]⟩ : Memory (RefCounted Nat)) 1
      = .ok ⟨[], [some ⟨1, 42⟩]⟩ ∧
    (⟨[], [some ⟨1, 42⟩]⟩ : Memory (RefCounted Nat)).map[0]?
      = some (some ⟨1, 42⟩) :=
  ⟨rfl, rfl, rfl, rfl⟩

/-- Claim C3 amended: starting from a TinyArc created by new (count 1),
N clones followed by N + 1 drops - one drop per arc in existence - free
the stored value exactly once, and only at the final (N+1)th drop: after
any k ≤ N drops the slot is still Occupied with count N + 1 - k, the
(N+1)th drop empties the slot, and one further drop fails fatally. -/
theorem clones_then_drops_free_exactly_once {α : Type} (v : α) (N : Nat)
    (hN : N + 1 < u32Mod) :
    TinyArc.new (Memory.new : Memory (RefCounted α))
      v = .ok (1, ⟨[], [some ⟨1, v⟩]⟩) ∧
    TinyArc.cloneN N (⟨[], [some ⟨1, v⟩]⟩ : Memory (RefCounted α)) 1
      = .ok ⟨[], [some ⟨N + 1, v⟩]⟩ ∧
    (∀ k, k ≤ N →
      TinyArc.dropN k (⟨[], [some ⟨N + 1, v⟩]⟩ : Memory (RefCounted α)) 1
        = .ok ⟨[], [some ⟨N + 1 - k, v⟩]⟩) ∧
    TinyArc.dropN (N + 1) (⟨[], [some ⟨N + 1, v⟩]⟩ : Memory (RefCounted α)) 1
      = .ok ⟨[], [none]⟩ ∧
    TinyArc.drop (⟨[], [none]⟩ : Memory (RefCounted α)) 1
      = .error .alreadyFreed := by
  refine ⟨rfl, ?_, ?_, ?_, rfl⟩
  · have := TinyArc.cloneN_adds v N 1 (by omega)
    simpa [Nat.add_comm] using this
  · intro k hk
    exact TinyArc.dropN_below v k (N + 1) (by omega) hN
  · exact TinyArc.dropN_all v (N + 1) (by omega) hN

/-- Claim C5: new_cyclic reserves a placeholder cell with count 0 and the
structurally-valid stand-in value, hands the builder the weak id of that
very slot, and after the builder returns commits in place: the slot then
holds the builder's result with count 1, the returned arc is over the same
slot id as the weak, dereferencing it yields the builder's value, the weak
upgrades successfully, and ptr_eq holds between arc and upgraded weak. -/
theorem new_cyclic_reserve_then_commit {α : Type} (m : Memory (RefCounted α))
    (uninit : α) (f : Nat → α) (id : Nat) (m1 : Memory (RefCounted α))
    (h : m.insert_value ⟨0, uninit⟩ = .ok (id, m1)) :
    m1.access id = .ok ⟨0, uninit⟩ ∧
    ∃ m3, TinyArc.new_cyclic m uninit f = .ok (id, m3) ∧
      m3.access id = .ok ⟨1, f id⟩ ∧
      TinyArc.deref m3 id = .ok (f id) ∧
      (∃ m4, TinyWeak.upgrade m3 id = .ok (id, m4)) ∧
      TinyArc.ptr_eq id (TinyArc.downgrade id) = true := by
  obtain ⟨hslot, hframe, hmono, hlt⟩ := Memory.insert_ok_spec h
  have ha1 : m1.access id = .ok ⟨0, uninit⟩ :=
    (Memory.access_eq_ok_iff _ _ _).mpr hslot
  have hlt1 : id - 1 < m1.map.length := getElem?_some_lt hslot
  have hm2slot : (m1.writeSlot id ⟨0, f id⟩).map[id - 1]?
      = some (some ⟨0, f id⟩) := by
    unfold Memory.writeSlot
    exact List.getElem?_set_eq_of_lt _ hlt1
  have hlt2 : id - 1 < (m1.writeSlot id ⟨0, f id⟩).map.length := by
    simpa [Memory.writeSlot] using hlt1
  have hinc := TinyArc.increase_of_slot (m1.writeSlot id ⟨0, f id⟩) id 0
    (f id) hm2slot (by decide)
  have hacc3 : ((m1.writeSlot id ⟨0, f id⟩).writeSlot id ⟨1, f id⟩).access id
      = .ok ⟨1, f id⟩ :=
    Memory.access_writeSlot_self _ id ⟨1, f id⟩ hlt2
  have hm3slot : ((m1.writeSlot id ⟨0, f id⟩).writeSlot id ⟨1, f id⟩).map[id - 1]?
      = some (some ⟨1, f id⟩) := (Memory.access_eq_ok_iff _ _ _).mp hacc3
  refine ⟨ha1, (m1.writeSlot id ⟨0, f id⟩).writeSlot id ⟨1, f id⟩,
    ?_, hacc3, ?_, ?_, ?_⟩
  · simp only [TinyArc.new_cyclic, h, ha1, hinc]
  · unfold TinyArc.deref
    rw [hacc3]
    simp
  · have hinc2 := TinyArc.increase_of_slot _ id 1 (f id) hm3slot (by decide)
    refine ⟨((m1.writeSlot id ⟨0, f id⟩).writeSlot id ⟨1, f id⟩).writeSlot id
      ⟨1 + 1, f id⟩, ?_⟩
    unfold TinyWeak.upgrade
    rw [hinc2]
  · simp [TinyArc.ptr_eq, TinyArc.downgrade]

/-- Witness for C5: building cyclically over the empty arena with builder
returning its weak id plus 100 commits value 101 in slot 1 with count 1. -/
theorem new_cyclic_reserve_then_commit_witness :
    Memory.insert_value (Memory.new : Memory (RefCounted Nat)) ⟨0, 0⟩
      = .ok (1, ⟨[], [some ⟨0, 0⟩]⟩) ∧
    (Memory.access (⟨[], [some ⟨0, 0⟩]⟩ : Memory (RefCounted Nat)) 1
        = .ok ⟨0, 0⟩ ∧
      ∃ m3, TinyArc.new_cyclic (Memory.new : Memory (RefCounted Nat)) 0
          (fun i => i + 100) = .ok (1, m3) ∧
        m3.access 1 = .ok ⟨1, 101⟩ ∧
        TinyArc.deref m3 1 = .ok 101 ∧
        (∃ m4, TinyWeak.upgrade m3 1 = .ok (1, m4)) ∧
        TinyArc.ptr_eq 1 (TinyArc.downgrade 1) = true) :=
  ⟨rfl, new_cyclic_reserve_then_commit Memory.new 0 (fun i => i + 100) 1
    ⟨[], [some ⟨0, 0⟩]⟩ rfl⟩

/-- Claim C8: cloning a live TinyBox allocates a distinct fresh slot with a
deep copy: the two boxes have different ids, both read the value, writing
through either never changes what the other observes, and dropping the
two boxes frees each slot independently and exactly once (a second drop of
either is fatal). -/
theorem tinybox_clone_independence {α : Type} (m : Memory α) (id : Nat)
    (v : α) (hv : m.access id = .ok v)
    (hfree : ∀ i ∈ m.available, m.map[i - 1]? = some none)
    (hcap : m.remaingSlots ≠ 0) :
    ∃ id' m', TinyBox.clone m id = .ok (id', m') ∧ id' ≠ id ∧
      m'.access id = .ok v ∧ m'.access id' = .ok v ∧
      (∀ w, TinyBox.write m' id' w = .ok (m'.writeSlot id' w) ∧
        (m'.writeSlot id' w).access id = .ok v ∧
        (m'.writeSlot id' w).access id' = .ok w) ∧
      (∀ w, TinyBox.write m' id w = .ok (m'.writeSlot id w) ∧
        (m'.writeSlot id w).access id' = .ok v ∧
        (m'.writeSlot id w).access id = .ok w) ∧
      (∃ m2, TinyBox.drop m' id' = .ok m2 ∧
        m2.access id = .ok v ∧
        m2.access id' = .error .alreadyFreed ∧
        ∃ m3, TinyBox.drop m2 id = .ok m3 ∧
          m3.access id = .error .alreadyFreed ∧
          TinyBox.drop m3 id = .error .alreadyFreed ∧
          TinyBox.drop m3 id' = .error .alreadyFreed) := by
  have hocc : m.map[id - 1]? = some (some v) :=
    (Memory.access_eq_ok_iff m id v).mp hv
  obtain ⟨id', m', hins⟩ := Memory.insert_succeeds m v hcap
    (fun i hi => getElem?_some_lt (hfree i hi))
  obtain ⟨hne_idx, hne⟩ := Memory.insert_fresh_id hins hocc hfree
  have hid_ne : id - 1 ≠ id' - 1 := Ne.symm hne_idx
  obtain ⟨hslot', hframe, hmono, hlt'⟩ := Memory.insert_ok_spec hins
  have hclone : TinyBox.clone m id = .ok (id', m') := by
    unfold TinyBox.clone
    rw [hv]
    exact hins
  have hslot_id : m'.map[id - 1]? = some (some v) := by
    rw [hframe _ hid_ne]
    exact hocc
  have hlt_id : id - 1 < m'.map.length := getElem?_some_lt hslot_id
  have hacc_id : m'.access id = .ok v :=
    (Memory.access_eq_ok_iff _ _ _).mpr hslot_id
  have hacc_id' : m'.access id' = .ok v :=
    (Memory.access_eq_ok_iff _ _ _).mpr hslot'
  refine ⟨id', m', hclone, hne, hacc_id, hacc_id', ?_, ?_, ?_⟩
  · intro w
    refine ⟨?_, ?_, ?_⟩
    · unfold TinyBox.write
      rw [hacc_id']
    · rw [Memory.access_writeSlot_other m' id' id w hid_ne]
      exact hacc_id
    · exact Memory.access_writeSlot_self m' id' w hlt'
  · intro w
    refine ⟨?_, ?_, ?_⟩
    · unfold TinyBox.write
      rw [hacc_id]
    · rw [Memory.access_writeSlot_other m' id id' w hne_idx]
      exact hacc_id'
    · exact Memory.access_writeSlot_self m' id w hlt_id
  · have hm2slot_id : (m'.map.set (id' - 1) none)[id - 1]? = some (some v) := by
      rw [List.getElem?_set_ne hne_idx]
      exact hslot_id
    have hm2slot_id' : (m'.map.set (id' - 1) none)[id' - 1]? = some none :=
      List.getElem?_set_eq_of_lt _ hlt'
    refine ⟨⟨m'.available, m'.map.set (id' - 1) none⟩,
      TinyBox.drop_of_slot m' id' v hslot', ?_, ?_, ?_⟩
    · exact (Memory.access_eq_ok_iff _ _ _).mpr hm2slot_id
    · exact (Memory.access_eq_freed_iff _ _).mpr hm2slot_id'
    · have hm3slot_id : ((m'.map.set (id' - 1) none).set (id - 1) none)[id - 1]?
          = some none :=
        List.getElem?_set_eq_of_lt _ (by simpa using hlt_id)
      have hm3slot_id' : ((m'.map.set (id' - 1) none).set (id - 1) none)[id' - 1]?
          = some none := by
        rw [List.getElem?_set_ne hid_ne]
        exact hm2slot_id'
      refine ⟨⟨m'.available, (m'.map.set (id' - 1) none).set (id - 1) none⟩,
        TinyBox.drop_of_slot _ id v hm2slot_id, ?_, ?_, ?_⟩
      · exact (Memory.access_eq_freed_iff _ _).mpr hm3slot_id
      · exact TinyBox.drop_freed _ id hm3slot_id
      · exact TinyBox.drop_freed _ id' hm3slot_id'

/-- Witness for C8 on a one-slot arena holding 5 at handle 1. -/
theorem tinybox_clone_independence_witness :
    (Memory.access (⟨[], [some 5]⟩ : Memory Nat) 1 = .ok 5 ∧
      (∀ i ∈ (⟨[], [some 5]⟩ : Memory Nat).available,
        (⟨[], [some 5]⟩ : Memory Nat).map[i - 1]? = some none) ∧
      (⟨[], [some 5]⟩ : Memory Nat).remaingSlots ≠ 0) ∧
    (∃ id' m', TinyBox.clone (⟨[], [some 5]⟩ : Memory Nat) 1 = .ok (id', m') ∧
      id' ≠ 1 ∧
      m'.access 1 = .ok 5 ∧ m'.access id' = .ok 5 ∧
      (∀ w, TinyBox.write m' id' w = .ok (m'.writeSlot id' w) ∧
        (m'.writeSlot id' w).access 1 = .ok 5 ∧
        (m'.writeSlot id' w).access id' = .ok w) ∧
      (∀ w, TinyBox.write m' 1 w = .ok (m'.writeSlot 1 w) ∧
        (m'.writeSlot 1 w).access id' = .ok 5 ∧
        (m'.writeSlot 1 w).access 1 = .ok w) ∧
      (∃ m2, TinyBox.drop m' id' = .ok m2 ∧
        m2.access 1 = .ok 5 ∧
        m2.access id' = .error .alreadyFreed ∧
        ∃ m3, TinyBox.drop m2 1 = .ok m3 ∧
          m3.access 1 = .error .alreadyFreed ∧
          TinyBox.drop m3 1 = .error .alreadyFreed ∧
          TinyBox.drop m3 id' = .error .alreadyFreed)) :=
  ⟨⟨rfl, by simp, by decide⟩,
    tinybox_clone_independence ⟨[], [some 5]⟩ 1 5 rfl (by simp) (by decide)⟩

/-- Witness for the amended C3 at N = 1 and value 42. -/
theorem clones_then_drops_free_exactly_once_witness :
    (1 + 1 < u32Mod) ∧
    (TinyArc.new (Memory.new : Memory (RefCounted Nat)) 42
        = .ok (1, ⟨[], [some ⟨1, 42⟩]⟩) ∧
      TinyArc.cloneN 1 (⟨[], [some ⟨1, 42⟩]⟩ : Memory (RefCounted Nat)) 1
        = .ok ⟨[], [some ⟨1 + 1, 42⟩]⟩ ∧
      (∀ k, k ≤ 1 →
        TinyArc.dropN k (⟨[], [some ⟨1 + 1, 42⟩]⟩ : Memory (RefCounted Nat)) 1
          = .ok ⟨[], [some ⟨1 + 1 - k, 42⟩]⟩) ∧
      TinyArc.dropN (1 + 1)
          (⟨[], [some ⟨1 + 1, 42⟩]⟩ : Memory (RefCounted Nat)) 1
        = .ok ⟨[], [none]⟩ ∧
      TinyArc.drop (⟨[], [none]⟩ : Memory (RefCounted Nat)) 1
        = .error .alreadyFreed) :=
  ⟨by decide, clones_then_drops_free_exactly_once 42 1 (by decide)⟩

end Tinypointers
